import Mathlib

/-!
Shallow embedding of `yaraprocessor.py` (MITRECND/yaraprocessor).

Python strings are modelled as `List Char`.  The external yara engine
(`self._rules.match`) is modelled as an opaque pure function
`Matcher : List Char → List YaraMatch`, following the spec's contract that
`match` is a pure function of the buffer.  The `Processor` state carries the
fields of the Python object that the chunking and offset-accounting layer
reads or writes: `_processing_mode`, `_buffer_size`, `_window_step`,
`_raw_results`, `_formatted_results`, `_current`, `_window_index`, `_offset`.
Rule-file validation, compilation and logging are out of scope (external
collaborators per the spec) and are not part of the state.
-/

/-- Python strings are modelled as lists of characters. -/
abbrev Str := List Char

/-- One string hit as reported by yara: a tuple `(offset, rule_id, bytes)`
(`s[0]`, `s[1]`, `s[2]` in the source). -/
structure YaraString where
  offset : Nat
  rule_id : Str
  string : Str
deriving DecidableEq, Repr

/-- One match object returned by yara's `match`: a rule name `r.rule` and its
string hits `r.strings`. -/
structure YaraMatch where
  rule : Str
  strings : List YaraString
deriving DecidableEq, Repr

/-- The external matching engine: `self._rules.match(data=data)` modelled as a
pure function of the data buffer (the spec declares `match` stateless). -/
abbrev Matcher := Str → List YaraMatch

/-- A formatted per-string entry of a result dictionary:
`{'offset': ..., 'rule_id': ..., 'string': ...}`. -/
structure StringRecord where
  offset : Nat
  rule_id : Str
  string : Str
deriving DecidableEq, Repr

/-- A formatted result dictionary:
`{'result': r.rule, 'strings': [...], 'subtype': 'scan_result'}`. -/
structure MatchRecord where
  result : Str
  strings : List StringRecord
  subtype : Str
deriving DecidableEq, Repr

/-- The mutable state of a `Processor` instance. -/
structure Processor where
  processing_mode : Str
  buffer_size : Nat
  window_step : Nat
  raw_results : List YaraMatch
  formatted_results : List MatchRecord
  current : Str
  window_index : Nat
  offset : Nat
deriving DecidableEq, Repr

/-- One hexadecimal digit, lowercase (used to model `binascii.hexlify`). -/
def hexDigit (n : Nat) : Char :=
  if n < 10 then Char.ofNat (48 + n) else Char.ofNat (87 + n)

/-- `binascii.hexlify`: every byte becomes two lowercase hex digits. -/
def hexlify (s : Str) : Str :=
  s.flatMap (fun c => [hexDigit (c.toNat % 256 / 16), hexDigit (c.toNat % 16)])

/-- `self._allowed_modes = ['raw', 'fixed_buffer', 'sliding_window']`. -/
def allowed_modes : List Str :=
  ["raw".toList, "fixed_buffer".toList, "sliding_window".toList]

/-- The mode-validation and state-initialisation part of `Processor.__init__`
(lines 133-159 of the source; rule loading is an external collaborator).
`processing_mode.lower()` is modelled as `List.map Char.toLower` (the modes in
play are ASCII).  On an unsupported mode the constructor raises
`ProcessorException`, modelled as `Except.error` carrying the message. -/
def mkProcessor (processing_mode : Str) (buffer_size : Nat := 1024)
    (window_step : Nat := 1) : Except Str Processor :=
  if (processing_mode.map Char.toLower) ∈ allowed_modes then
    Except.ok
      { processing_mode := processing_mode
        buffer_size := buffer_size
        -- window_step is forced to buffer_size in fixed_buffer mode
        window_step := if processing_mode = "fixed_buffer".toList then
            buffer_size else window_step
        raw_results := []
        formatted_results := []
        current := []
        window_index := 0
        offset := 0 }
  else
    Except.error (processing_mode ++ " is not a supported processing mode.".toList)

/-- The body of the `while True` loop of `Processor._window`, with explicit
fuel.  The Python generator runs `result = sequence[i : i + size]`, stops on an
empty slice, otherwise advances `i` by `step` and yields `result`.  The loop
terminates for every `step ≥ 1`; `sequence.length + 1` iterations then always
suffice (proved in `windowLoop_spec`), so the fuelled function computes the
whole yielded sequence.  For `step = 0` the Python loop diverges on non-empty
input, which a total function cannot represent. -/
def windowLoop (sequence : Str) (size step : Nat) : Nat → Nat → List Str
  | 0, _ => []
  | fuel + 1, i =>
    let result := List.take size (List.drop i sequence)
    if result = [] then []
    else result :: windowLoop sequence size step fuel (i + step)

/-- `Processor._window(sequence, size=2, step=1)`: the full (finite, for
`step ≥ 1`) sequence of slices yielded by the generator. -/
def window (sequence : Str) (size : Nat := 2) (step : Nat := 1) : List Str :=
  windowLoop sequence size step (sequence.length + 1) 0

/-- Resolution of `analyze`'s optional `data` argument: `if not data: data =
self.data`.  Both `None` and the empty string are falsy, so both fall back to
the property `self.data`, i.e. `self._current`. -/
def analyzeData (st : Processor) (d : Option Str) : Str :=
  match d with
  | none => st.current
  | some s => if s = [] then st.current else s

/-- Formatting of one string hit inside `analyze`:
`{'offset': self._offset + s[0], 'rule_id': s[1], 'string': hexlify(s[2])}`. -/
def formatString (base : Nat) (s : YaraString) : StringRecord :=
  { offset := base + s.offset
    rule_id := s.rule_id
    string := hexlify s.string }

/-- Formatting of one match inside `analyze`:
`{'result': r.rule, 'strings': [...], 'subtype': 'scan_result'}`. -/
def formatMatch (base : Nat) (r : YaraMatch) : MatchRecord :=
  { result := r.rule
    strings := r.strings.map (formatString base)
    subtype := "scan_result".toList }

/-- `Processor.analyze(data=None)`.  Appends each match to `_raw_results` and
its formatted record to `_formatted_results`, advances `_offset` by
`len(data)` in raw mode, and returns `self.results`, i.e. the whole
`_formatted_results` list.  Result: the new state and the returned value. -/
def analyze (m : Matcher) (st : Processor) (d : Option Str := none) :
    Processor × List MatchRecord :=
  let data := analyzeData st d
  let ms := m data
  let st1 :=
    { st with
      raw_results := st.raw_results ++ ms
      formatted_results :=
        st.formatted_results ++ ms.map (formatMatch st.offset) }
  let st2 :=
    if st1.processing_mode = "raw".toList then
      { st1 with offset := st1.offset + data.length }
    else st1
  (st2, st2.formatted_results)

/-- `Processor.results`: the accumulated formatted results. -/
def results (st : Processor) : List MatchRecord :=
  st.formatted_results

/-- `Processor.clear_results`. -/
def clear_results (st : Processor) : Processor :=
  { st with raw_results := [], formatted_results := [] }

/-- One iteration of the `for chunk in self._window(...)` loop of the data
setter: `self.analyze(''.join(chunk))`, then the per-mode offset advancement
(`len(chunk)` in fixed_buffer mode, `self._window_step` in sliding_window
mode, nothing otherwise). -/
def chunkStep (m : Matcher) (st : Processor) (chunk : Str) : Processor :=
  let st1 := (analyze m st (some chunk)).1
  if st1.processing_mode = "fixed_buffer".toList then
    { st1 with offset := st1.offset + chunk.length }
  else if st1.processing_mode = "sliding_window".toList then
    { st1 with offset := st1.offset + st1.window_step }
  else st1

/-- The `data` property setter (`Processor.data`, lines 256-307): store the
value in `_current`; in non-`'raw'` modes, when the unconsumed tail
`_current[_window_index:]` is non-empty (`self._current` truthy) and at least
`_buffer_size` long, run every chunk produced by `_window` through
`chunkStep` and then set `_window_index = len(self._current)`. -/
def setData (m : Matcher) (st : Processor) (value : Str) : Processor :=
  let st0 := { st with current := value }
  if st0.processing_mode ≠ "raw".toList then
    if st0.current ≠ [] ∧
       st0.buffer_size ≤ (st0.current.drop st0.window_index).length then
      let st1 := (window (st0.current.drop st0.window_index)
          st0.buffer_size st0.window_step).foldl (chunkStep m) st0
      { st1 with window_index := st1.current.length }
    else st0
  else st0

/-- The list of chunks a single call of the data setter dispatches to the
Matcher: the slices produced by `_window` over the unconsumed tail when the
setter's guard holds, nothing otherwise.  (Specification-side companion of
`setData`, used to state offset-accounting properties.) -/
def dispatchedChunks (st : Processor) (value : Str) : List Str :=
  if st.processing_mode ≠ "raw".toList ∧ value ≠ [] ∧
     st.buffer_size ≤ (value.drop st.window_index).length then
    window (value.drop st.window_index) st.buffer_size st.window_step
  else []

/-- A probe matching engine used for concrete evaluations: it reports, for any
buffer, one match whose rule name is the buffer itself, with a single string
hit at local offset 0.  Feeding it through the Processor makes the dispatched
chunks and the offset bases applied to them observable in the results. -/
def probe : Matcher := fun d =>
  [{ rule := d, strings := [{ offset := 0, rule_id := [], string := [] }] }]

/-- The state `Processor(rules, processing_mode='fixed_buffer', buffer_size=5)`
starts in (window_step is forced to the buffer size). -/
def fixedProc5 : Processor :=
  { processing_mode := "fixed_buffer".toList
    buffer_size := 5
    window_step := 5
    raw_results := []
    formatted_results := []
    current := []
    window_index := 0
    offset := 0 }

/-- The state `Processor(rules, processing_mode='sliding_window',
buffer_size=5, window_step=2)` starts in. -/
def slidingProc52 : Processor :=
  { processing_mode := "sliding_window".toList
    buffer_size := 5
    window_step := 2
    raw_results := []
    formatted_results := []
    current := []
    window_index := 0
    offset := 0 }

/-- The state `Processor(rules)` (default raw mode) starts in. -/
def rawProc : Processor :=
  { processing_mode := "raw".toList
    buffer_size := 1024
    window_step := 1
    raw_results := []
    formatted_results := []
    current := []
    window_index := 0
    offset := 0 }

/-- The state `Processor(rules, processing_mode='Raw', buffer_size=5)` starts
in: the mode string is stored verbatim, capital letter included. -/
def RawProc5 : Processor :=
  { processing_mode := "Raw".toList
    buffer_size := 5
    window_step := 1
    raw_results := []
    formatted_results := []
    current := []
    window_index := 0
    offset := 0 }

/-! ### Basic lemmas about `analyze` and `chunkStep` -/

theorem analyze_fst (m : Matcher) (st : Processor) (d : Option Str) :
    (analyze m st d).1 =
      { st with
        raw_results := st.raw_results ++ m (analyzeData st d)
        formatted_results :=
          st.formatted_results ++ (m (analyzeData st d)).map (formatMatch st.offset)
        offset := if st.processing_mode = "raw".toList then
            st.offset + (analyzeData st d).length else st.offset } := by
  simp only [analyze]
  split <;> rfl

theorem analyze_snd (m : Matcher) (st : Processor) (d : Option Str) :
    (analyze m st d).2 = (analyze m st d).1.formatted_results := rfl

theorem analyze_mode (m : Matcher) (st : Processor) (d : Option Str) :
    (analyze m st d).1.processing_mode = st.processing_mode := by
  rw [analyze_fst]

theorem analyze_window_step (m : Matcher) (st : Processor) (d : Option Str) :
    (analyze m st d).1.window_step = st.window_step := by
  rw [analyze_fst]

theorem analyze_buffer_size (m : Matcher) (st : Processor) (d : Option Str) :
    (analyze m st d).1.buffer_size = st.buffer_size := by
  rw [analyze_fst]

theorem analyze_current (m : Matcher) (st : Processor) (d : Option Str) :
    (analyze m st d).1.current = st.current := by
  rw [analyze_fst]

theorem analyze_window_index (m : Matcher) (st : Processor) (d : Option Str) :
    (analyze m st d).1.window_index = st.window_index := by
  rw [analyze_fst]

theorem analyze_offset (m : Matcher) (st : Processor) (d : Option Str) :
    (analyze m st d).1.offset = if st.processing_mode = "raw".toList then
      st.offset + (analyzeData st d).length else st.offset := by
  rw [analyze_fst]

theorem analyze_formatted (m : Matcher) (st : Processor) (d : Option Str) :
    (analyze m st d).1.formatted_results =
      st.formatted_results ++ (m (analyzeData st d)).map (formatMatch st.offset) := by
  rw [analyze_fst]

theorem analyzeData_some_ne (st : Processor) (s : Str) (h : s ≠ []) :
    analyzeData st (some s) = s := by
  simp [analyzeData, h]

theorem fixed_ne_raw : ("fixed_buffer".toList : Str) ≠ "raw".toList := by decide

theorem sliding_ne_raw : ("sliding_window".toList : Str) ≠ "raw".toList := by decide

theorem sliding_ne_fixed : ("sliding_window".toList : Str) ≠ "fixed_buffer".toList := by
  decide

theorem Raw_ne_raw : ("Raw".toList : Str) ≠ "raw".toList := by decide

theorem Raw_ne_fixed : ("Raw".toList : Str) ≠ "fixed_buffer".toList := by decide

theorem Raw_ne_sliding : ("Raw".toList : Str) ≠ "sliding_window".toList := by decide

theorem chunkStep_mode (m : Matcher) (st : Processor) (c : Str) :
    (chunkStep m st c).processing_mode = st.processing_mode := by
  simp only [chunkStep]
  split
  · simp [analyze_mode]
  · split <;> simp [analyze_mode]

theorem chunkStep_window_step (m : Matcher) (st : Processor) (c : Str) :
    (chunkStep m st c).window_step = st.window_step := by
  simp only [chunkStep]
  split
  · simp [analyze_window_step]
  · split <;> simp [analyze_window_step]

theorem chunkStep_buffer_size (m : Matcher) (st : Processor) (c : Str) :
    (chunkStep m st c).buffer_size = st.buffer_size := by
  simp only [chunkStep]
  split
  · simp [analyze_buffer_size]
  · split <;> simp [analyze_buffer_size]

theorem chunkStep_current (m : Matcher) (st : Processor) (c : Str) :
    (chunkStep m st c).current = st.current := by
  simp only [chunkStep]
  split
  · simp [analyze_current]
  · split <;> simp [analyze_current]

theorem chunkStep_window_index (m : Matcher) (st : Processor) (c : Str) :
    (chunkStep m st c).window_index = st.window_index := by
  simp only [chunkStep]
  split
  · simp [analyze_window_index]
  · split <;> simp [analyze_window_index]

theorem chunkStep_formatted (m : Matcher) (st : Processor) (c : Str) :
    (chunkStep m st c).formatted_results =
      st.formatted_results ++ (m (analyzeData st (some c))).map (formatMatch st.offset) := by
  simp only [chunkStep]
  split
  · simp [analyze_formatted]
  · split <;> simp [analyze_formatted]

theorem chunkStep_offset_fixed (m : Matcher) (st : Processor) (c : Str)
    (h : st.processing_mode = "fixed_buffer".toList) :
    (chunkStep m st c).offset = st.offset + c.length := by
  simp [chunkStep, analyze_mode, analyze_offset, h, fixed_ne_raw]

theorem chunkStep_offset_sliding (m : Matcher) (st : Processor) (c : Str)
    (h : st.processing_mode = "sliding_window".toList) :
    (chunkStep m st c).offset = st.offset + st.window_step := by
  simp [chunkStep, analyze_mode, analyze_offset, analyze_window_step, h,
    sliding_ne_raw, sliding_ne_fixed]

theorem chunkStep_Raw (m : Matcher) (st : Processor) (c : Str)
    (h : st.processing_mode = "Raw".toList) :
    chunkStep m st c = (analyze m st (some c)).1 := by
  simp [chunkStep, analyze_mode, h, Raw_ne_fixed, Raw_ne_sliding]

theorem foldl_chunkStep_mode (m : Matcher) (chunks : List Str) :
    ∀ st : Processor,
      (chunks.foldl (chunkStep m) st).processing_mode = st.processing_mode := by
  induction chunks with
  | nil => intro st; rfl
  | cons c cs ih =>
      intro st
      rw [List.foldl_cons, ih, chunkStep_mode]

theorem foldl_chunkStep_current (m : Matcher) (chunks : List Str) :
    ∀ st : Processor, (chunks.foldl (chunkStep m) st).current = st.current := by
  induction chunks with
  | nil => intro st; rfl
  | cons c cs ih =>
      intro st
      rw [List.foldl_cons, ih, chunkStep_current]

theorem foldl_chunkStep_window_index (m : Matcher) (chunks : List Str) :
    ∀ st : Processor,
      (chunks.foldl (chunkStep m) st).window_index = st.window_index := by
  induction chunks with
  | nil => intro st; rfl
  | cons c cs ih =>
      intro st
      rw [List.foldl_cons, ih, chunkStep_window_index]

theorem foldl_chunkStep_offset_fixed (m : Matcher) (chunks : List Str) :
    ∀ st : Processor, st.processing_mode = "fixed_buffer".toList →
      (chunks.foldl (chunkStep m) st).offset
        = st.offset + (chunks.map List.length).sum := by
  induction chunks with
  | nil => intro st _; simp
  | cons c cs ih =>
      intro st h
      rw [List.foldl_cons, ih _ (by rw [chunkStep_mode]; exact h),
        chunkStep_offset_fixed m st c h]
      simp [Nat.add_assoc]

theorem foldl_chunkStep_offset_sliding (m : Matcher) (chunks : List Str) :
    ∀ st : Processor, st.processing_mode = "sliding_window".toList →
      (chunks.foldl (chunkStep m) st).offset
        = st.offset + chunks.length * st.window_step := by
  induction chunks with
  | nil => intro st _; simp
  | cons c cs ih =>
      intro st h
      rw [List.foldl_cons, ih _ (by rw [chunkStep_mode]; exact h),
        chunkStep_offset_sliding m st c h, chunkStep_window_step]
      simp only [List.length_cons]
      ring

theorem foldl_chunkStep_Raw (m : Matcher) (chunks : List Str) :
    ∀ st : Processor, st.processing_mode = "Raw".toList →
      (∀ c ∈ chunks, c ≠ []) →
      (chunks.foldl (chunkStep m) st).offset = st.offset ∧
      (chunks.foldl (chunkStep m) st).formatted_results
        = st.formatted_results
          ++ chunks.flatMap (fun c => (m c).map (formatMatch st.offset)) := by
  induction chunks with
  | nil => intro st _ _; exact ⟨rfl, by simp⟩
  | cons c cs ih =>
      intro st h hne
      have hc : c ≠ [] := hne c (List.mem_cons_self c cs)
      have hstep := chunkStep_Raw m st c h
      have hmode : (chunkStep m st c).processing_mode = "Raw".toList := by
        rw [chunkStep_mode]; exact h
      have hoff : (chunkStep m st c).offset = st.offset := by
        rw [hstep, analyze_offset, h]
        simp [Raw_ne_raw]
      have hfmt : (chunkStep m st c).formatted_results
          = st.formatted_results ++ (m c).map (formatMatch st.offset) := by
        rw [chunkStep_formatted, analyzeData_some_ne st c hc]
      obtain ⟨ih_off, ih_fmt⟩ :=
        ih (chunkStep m st c) hmode (fun x hx => hne x (List.mem_cons_of_mem c hx))
      constructor
      · rw [List.foldl_cons, ih_off, hoff]
      · rw [List.foldl_cons, ih_fmt, hfmt, hoff]
        simp [List.flatMap_cons, List.append_assoc]

/-! ### The windowing generator -/

theorem windowLoop_mem_ne_nil (seq : Str) (size step : Nat) :
    ∀ (fuel i : Nat) (c : Str), c ∈ windowLoop seq size step fuel i → c ≠ [] := by
  intro fuel
  induction fuel with
  | zero => intro i c hc; simp [windowLoop] at hc
  | succ fuel ih =>
      intro i c hc
      rw [windowLoop] at hc
      by_cases hres : List.take size (List.drop i seq) = []
      · rw [if_pos hres] at hc
        simp at hc
      · rw [if_neg hres] at hc
        rcases List.mem_cons.mp hc with h | h
        · rw [h]; exact hres
        · exact ih (i + step) c h

theorem window_mem_ne_nil (seq : Str) (size step : Nat) (c : Str)
    (hc : c ∈ window seq size step) : c ≠ [] :=
  windowLoop_mem_ne_nil seq size step (seq.length + 1) 0 c hc

theorem windowLoop_spec (seq : Str) (size step : Nat) (hsize : 0 < size) :
    ∀ (fuel i : Nat), seq.length ≤ i + fuel * step →
      ∃ K, windowLoop seq size step fuel i
            = (List.range K).map
                (fun k => List.take size (List.drop (i + k * step) seq))
        ∧ (∀ k, k < K → i + k * step < seq.length)
        ∧ seq.length ≤ i + K * step := by
  intro fuel
  induction fuel with
  | zero =>
      intro i hlen
      refine ⟨0, by simp [windowLoop], ?_, ?_⟩
      · intro k hk; exact absurd hk (Nat.not_lt_zero k)
      · simpa using hlen
  | succ fuel ih =>
      intro i hlen
      by_cases hi : seq.length ≤ i
      · have hdrop : List.drop i seq = [] := List.drop_eq_nil_of_le hi
        refine ⟨0, ?_, ?_, ?_⟩
        · rw [windowLoop, hdrop]
          simp
        · intro k hk; exact absurd hk (Nat.not_lt_zero k)
        · simpa using hi
      · push_neg at hi
        have hdrop : List.drop i seq ≠ [] := by
          rw [Ne, List.drop_eq_nil_iff]
          omega
        have hres : List.take size (List.drop i seq) ≠ [] := by
          rw [Ne, List.take_eq_nil_iff]
          push_neg
          exact ⟨by omega, hdrop⟩
        have hlen' : seq.length ≤ (i + step) + fuel * step := by
          rw [Nat.succ_mul] at hlen
          omega
        obtain ⟨K, heq, hlt, hge⟩ := ih (i + step) hlen'
        refine ⟨K + 1, ?_, ?_, ?_⟩
        · rw [windowLoop, if_neg hres, heq, List.range_succ_eq_map]
          rw [List.map_cons, List.map_map]
          refine congrArg₂ List.cons (by simp) ?_
          refine List.map_congr_left ?_
          intro k _
          show List.take size (List.drop (i + step + k * step) seq)
              = List.take size (List.drop (i + Nat.succ k * step) seq)
          have : i + step + k * step = i + Nat.succ k * step := by
            rw [Nat.succ_mul]
            ring
          rw [this]
        · intro k hk
          cases k with
          | zero => simpa using hi
          | succ k' =>
              have : i + Nat.succ k' * step = (i + step) + k' * step := by
                rw [Nat.succ_mul]
                ring
              rw [this]
              exact hlt k' (by omega)
        · have : i + (K + 1) * step = (i + step) + K * step := by
            rw [Nat.succ_mul]
            ring
          rw [this]
          exact hge

theorem window_spec (seq : Str) (size step : Nat) (hsize : 0 < size)
    (hstep : 0 < step) :
    ∃ K, window seq size step
          = (List.range K).map (fun k => List.take size (List.drop (k * step) seq))
      ∧ (∀ k, k < K → k * step < seq.length)
      ∧ seq.length ≤ K * step := by
  have hfuel : seq.length ≤ 0 + (seq.length + 1) * step := by
    have h1 : (seq.length + 1) * 1 ≤ (seq.length + 1) * step :=
      Nat.mul_le_mul_left (seq.length + 1) hstep
    omega
  obtain ⟨K, heq, hlt, hge⟩ := windowLoop_spec seq size step hsize (seq.length + 1) 0 hfuel
  refine ⟨K, ?_, ?_, ?_⟩
  · rw [window, heq]
    refine List.map_congr_left ?_
    intro k _
    rw [Nat.zero_add]
  · intro k hk
    have := hlt k hk
    omega
  · omega

/-! ### The data setter -/

theorem setData_def (m : Matcher) (st : Processor) (v : Str) :
    setData m st v =
      if st.processing_mode ≠ "raw".toList then
        if v ≠ [] ∧ st.buffer_size ≤ (v.drop st.window_index).length then
          { (window (v.drop st.window_index) st.buffer_size st.window_step).foldl
              (chunkStep m) { st with current := v } with
            window_index :=
              ((window (v.drop st.window_index) st.buffer_size
                  st.window_step).foldl (chunkStep m)
                { st with current := v }).current.length }
        else { st with current := v }
      else { st with current := v } := rfl

theorem setData_eq_of_dispatch (m : Matcher) (st : Processor) (v : Str)
    (hmode : st.processing_mode ≠ "raw".toList)
    (hv : v ≠ []) (hlen : st.buffer_size ≤ (v.drop st.window_index).length) :
    setData m st v =
      { (window (v.drop st.window_index) st.buffer_size st.window_step).foldl
          (chunkStep m) { st with current := v } with window_index := v.length } := by
  rw [setData_def, if_pos hmode, if_pos (And.intro hv hlen)]
  simp only [foldl_chunkStep_current]

theorem setData_eq_of_no_dispatch (m : Matcher) (st : Processor) (v : Str)
    (h : st.processing_mode = "raw".toList ∨ v = [] ∨
      (v.drop st.window_index).length < st.buffer_size) :
    setData m st v = { st with current := v } := by
  rw [setData_def]
  split_ifs with h1 h2
  · exfalso
    rcases h with h | h | h
    · exact h1 h
    · exact h2.1 h
    · have := h2.2
      omega
  · rfl
  · rfl

theorem dispatchedChunks_of_dispatch (st : Processor) (v : Str)
    (hmode : st.processing_mode ≠ "raw".toList)
    (hv : v ≠ []) (hlen : st.buffer_size ≤ (v.drop st.window_index).length) :
    dispatchedChunks st v
      = window (v.drop st.window_index) st.buffer_size st.window_step := by
  rw [dispatchedChunks, if_pos ⟨hmode, hv, hlen⟩]

theorem dispatchedChunks_of_no_dispatch (st : Processor) (v : Str)
    (h : st.processing_mode = "raw".toList ∨ v = [] ∨
      (v.drop st.window_index).length < st.buffer_size) :
    dispatchedChunks st v = [] := by
  rw [dispatchedChunks, if_neg]
  rcases h with h | h | h
  · intro hc; exact hc.1 h
  · intro hc; exact hc.2.1 h
  · intro hc; omega

/-! ### Claims -/

/-- C1, counterexample: with a matcher reporting one match per call, a first
`analyze` call returns one record, and a second `analyze` call that produces
exactly one new match returns a two-element sequence (the full accumulated
history), not a one-element sequence as the claim states. -/
theorem analyze_returns_history_counterexample :
    (analyze probe rawProc (some ("ab".toList))).2.length = 1 ∧
    ((probe (analyzeData (analyze probe rawProc (some ("ab".toList))).1
        (some ("cd".toList)))).length = 1) ∧
    (analyze probe (analyze probe rawProc (some ("ab".toList))).1
        (some ("cd".toList))).2.length = 2 ∧
    ¬ (analyze probe (analyze probe rawProc (some ("ab".toList))).1
        (some ("cd".toList))).2.length = 1 := by
  refine ⟨by decide, by decide, by decide, by decide⟩

/-- C1, amended: `analyze` returns `self.results`, i.e. the full accumulated
formatted history — the records of this call appended after all records
accumulated by earlier calls. -/
theorem analyze_returns_accumulated_history (m : Matcher) (st : Processor)
    (d : Option Str) :
    (analyze m st d).2
      = st.formatted_results ++ (m (analyzeData st d)).map (formatMatch st.offset) := by
  rw [analyze_snd, analyze_formatted]

/-- C2: evaluation at the failing input.  With `fixed_buffer` mode and
`buffer_size = 5`, setting data to `"123456789"` dispatches the Matcher on
`"12345"` AND on the short trailing slice `"6789"` (the generator yields the
partial slice and the loop runs it), and `window_index` jumps to 9; a
subsequent append of `"0"` dispatches nothing, so `"67890"` is never
analyzed — contradicting the claim that a short trailing slice stays
buffered. -/
theorem fixed_buffer_dispatches_short_trailing_slice :
    mkProcessor ("fixed_buffer".toList) 5 1 = Except.ok fixedProc5 ∧
    window ("123456789".toList) 5 5 = ["12345".toList, "6789".toList] ∧
    (setData probe fixedProc5 ("123456789".toList)).formatted_results.map
        MatchRecord.result
      = ["12345".toList, "6789".toList] ∧
    (setData probe fixedProc5 ("123456789".toList)).window_index = 9 ∧
    (setData probe (setData probe fixedProc5 ("123456789".toList))
        ("1234567890".toList)).formatted_results.map MatchRecord.result
      = ["12345".toList, "6789".toList] := by
  refine ⟨by rfl, by decide, by decide, by decide, by decide⟩

/-- C3: evaluation at the failing input.  With `sliding_window` mode,
`size = 5`, `step = 2`, a single append of `"123456789"` dispatches FIVE
slices — `"12345"`, `"34567"`, `"56789"`, `"789"`, `"9"` — at offset bases
0, 2, 4, 6, 8 (the generator also yields the partial trailing windows), not
exactly the three full slices the claim states. -/
theorem sliding_window_dispatches_partial_windows :
    mkProcessor ("sliding_window".toList) 5 2 = Except.ok slidingProc52 ∧
    (setData probe slidingProc52 ("123456789".toList)).formatted_results.map
        MatchRecord.result
      = ["12345".toList, "34567".toList, "56789".toList, "789".toList,
          "9".toList] ∧
    (setData probe slidingProc52 ("123456789".toList)).formatted_results.map
        (fun r => r.strings.map StringRecord.offset)
      = [[0], [2], [4], [6], [8]] ∧
    ¬ (setData probe slidingProc52 ("123456789".toList)).formatted_results.length
        = 3 := by
  refine ⟨by rfl, by decide, by decide, by decide⟩

/-- C4, counterexample: in `fixed_buffer{size=5}` mode a single append of
`"123456789"` dispatches one complete buffer (`"12345"`) and one partial one
(`"6789"`), after which the global offset is 9, not `5 × 1 = 5` as the claim
(offset = size × number of complete buffers dispatched) states. -/
theorem fixed_buffer_offset_counterexample :
    (setData probe fixedProc5 ("123456789".toList)).offset = 9 ∧
    ((setData probe fixedProc5 ("123456789".toList)).formatted_results.filter
        (fun r => r.result.length == 5)).length = 1 ∧
    ¬ (9 : Nat) = 5 * 1 := by
  refine ⟨by decide, by decide, by decide⟩

/-- C4, amended: in `fixed_buffer` mode the global offset advances by exactly
the total length of the chunks dispatched to the Matcher in that call
(complete or partial); bytes that stay buffered without being dispatched are
never counted. -/
theorem fixed_buffer_offset_counts_dispatched_bytes (m : Matcher)
    (st : Processor) (v : Str)
    (hmode : st.processing_mode = "fixed_buffer".toList) :
    (setData m st v).offset
      = st.offset + ((dispatchedChunks st v).map List.length).sum := by
  have hmode' : st.processing_mode ≠ "raw".toList := by
    rw [hmode]; exact fixed_ne_raw
  by_cases hv : v = []
  · rw [setData_eq_of_no_dispatch m st v (Or.inr (Or.inl hv)),
      dispatchedChunks_of_no_dispatch st v (Or.inr (Or.inl hv))]
    simp
  · by_cases hlen : st.buffer_size ≤ (v.drop st.window_index).length
    · rw [setData_eq_of_dispatch m st v hmode' hv hlen,
        dispatchedChunks_of_dispatch st v hmode' hv hlen]
      have hfold := foldl_chunkStep_offset_fixed m
        (window (v.drop st.window_index) st.buffer_size st.window_step)
        { st with current := v } (by exact hmode)
      simpa using hfold
    · push_neg at hlen
      rw [setData_eq_of_no_dispatch m st v (Or.inr (Or.inr hlen)),
        dispatchedChunks_of_no_dispatch st v (Or.inr (Or.inr hlen))]
      simp

/-- Witness for C4's amended theorem at a concrete input. -/
theorem fixed_buffer_offset_counts_dispatched_bytes_witness :
    fixedProc5.processing_mode = "fixed_buffer".toList ∧
    (setData probe fixedProc5 ("123456789".toList)).offset
      = fixedProc5.offset
        + ((dispatchedChunks fixedProc5 ("123456789".toList)).map List.length).sum :=
  ⟨by decide,
    fixed_buffer_offset_counts_dispatched_bytes probe fixedProc5
      ("123456789".toList) (by decide)⟩

/-- C5: for every `analyze` call, the newly appended records translate each
Matcher-local string offset to `offset-at-call-entry + local offset`
(`formatMatch st.offset`, which maps string offsets to `st.offset + local`);
the `_offset` field itself is advanced only afterwards (in the result state,
and only in raw mode inside `analyze`), so the base used is the pre-increment
value; likewise one loop iteration of the data setter (`chunkStep`) formats
with the pre-increment base and advances the offset only after `analyze`
returns. -/
theorem analyze_offset_translation (m : Matcher) (st : Processor)
    (d : Option Str) :
    ((analyze m st d).1.formatted_results.drop st.formatted_results.length
        = (m (analyzeData st d)).map (formatMatch st.offset))
    ∧ (∀ (base : Nat) (r : YaraMatch),
        (formatMatch base r).strings.map StringRecord.offset
          = r.strings.map (fun s => base + s.offset))
    ∧ ((analyze m st d).1.offset
        = if st.processing_mode = "raw".toList then
            st.offset + (analyzeData st d).length else st.offset)
    ∧ (∀ c : Str,
        (chunkStep m st c).formatted_results.drop st.formatted_results.length
          = (m (analyzeData st (some c))).map (formatMatch st.offset)) := by
  refine ⟨?_, ?_, analyze_offset m st d, ?_⟩
  · rw [analyze_formatted]
    exact List.drop_left _ _
  · intro base r
    rw [formatMatch, List.map_map]
    rfl
  · intro c
    rw [chunkStep_formatted]
    exact List.drop_left _ _

/-- C6: for every sequence and every `size ≥ 1`, `step ≥ 1`, the windowing
generator terminates and yields exactly the slices
`sequence[k*step : k*step + size]` for `k = 0, 1, ..., K-1`, where `K` is the
first index whose slice is empty: every yielded slice starts strictly inside
the sequence (`k*step < length`) and `K*step ≥ length`.  The hypothesis
`step ≥ 1` is the precondition under which the embedded generator computes
the Python generator's full output (the fuel never runs out). -/
theorem window_yields_exactly_the_slices (seq : Str) (size step : Nat)
    (hsize : 1 ≤ size) (hstep : 1 ≤ step) :
    ∃ K, window seq size step
          = (List.range K).map (fun k => List.take size (List.drop (k * step) seq))
      ∧ (∀ k, k < K → k * step < seq.length)
      ∧ seq.length ≤ K * step :=
  window_spec seq size step hsize hstep

/-- Witness for C6 at `seq = "123456789"`, `size = 5`, `step = 2`. -/
theorem window_yields_exactly_the_slices_witness :
    1 ≤ 5 ∧ 1 ≤ 2 ∧
    ∃ K, window ("123456789".toList) 5 2
          = (List.range K).map
              (fun k => List.take 5 (List.drop (k * 2) ("123456789".toList)))
      ∧ (∀ k, k < K → k * 2 < ("123456789".toList).length)
      ∧ ("123456789".toList).length ≤ K * 2 :=
  ⟨by decide, by decide,
    window_yields_exactly_the_slices ("123456789".toList) 5 2 (by decide)
      (by decide)⟩

/-- C7: `clear_results` empties both accumulated result lists and leaves every
other field of the state — buffer contents, window index, global offset, mode
and sizes — unchanged. -/
theorem clear_results_frame (st : Processor) :
    (clear_results st).raw_results = [] ∧
    (clear_results st).formatted_results = [] ∧
    (clear_results st).current = st.current ∧
    (clear_results st).window_index = st.window_index ∧
    (clear_results st).offset = st.offset ∧
    (clear_results st).processing_mode = st.processing_mode ∧
    (clear_results st).buffer_size = st.buffer_size ∧
    (clear_results st).window_step = st.window_step :=
  ⟨rfl, rfl, rfl, rfl, rfl, rfl, rfl, rfl⟩

/-- C8: constructing a Processor whose lowercased mode string is not one of
the three allowed modes fails with the unsupported-mode `ProcessorException`;
no Processor state is produced. -/
theorem mkProcessor_unsupported_mode (mode : Str) (bs ws : Nat)
    (h : (mode.map Char.toLower) ∉ allowed_modes) :
    mkProcessor mode bs ws
      = Except.error (mode ++ " is not a supported processing mode.".toList) := by
  rw [mkProcessor, if_neg h]

/-- Witness for C8 at the unsupported mode string `"bogus"`. -/
theorem mkProcessor_unsupported_mode_witness :
    (("bogus".toList).map Char.toLower) ∉ allowed_modes ∧
    mkProcessor ("bogus".toList) 5 1
      = Except.error
          (("bogus".toList) ++ " is not a supported processing mode.".toList) :=
  ⟨by decide, mkProcessor_unsupported_mode ("bogus".toList) 5 1 (by decide)⟩

/-- C9: mode validation lowercases the mode string but the accepted mode is
stored verbatim, and all later comparisons are case-sensitive.  Hence (1) any
mode whose lowercase form is allowed is accepted and stored as given (with
`window_step` forced to `buffer_size` only on the exact string
`"fixed_buffer"`); (2) `"Raw"` lowercases into the allowed list; (3) in a
state whose stored mode is `"Raw"`, `analyze` never advances the offset
(`"Raw" ≠ "raw"`), the data setter takes the chunked-dispatch path (non-raw
branch: it dispatches the windowed chunks and, when the guard holds, jumps
`window_index` to the end of the data) yet no accounting branch advances
`global_offset`, so every dispatched chunk is formatted with the same
unchanged base `st.offset` and reported offsets stay chunk-local. -/
theorem mode_validation_case_insensitive_storage_verbatim :
    (∀ (mode : Str) (bs ws : Nat), (mode.map Char.toLower) ∈ allowed_modes →
      mkProcessor mode bs ws = Except.ok
        { processing_mode := mode
          buffer_size := bs
          window_step := if mode = "fixed_buffer".toList then bs else ws
          raw_results := []
          formatted_results := []
          current := []
          window_index := 0
          offset := 0 })
    ∧ (("Raw".toList).map Char.toLower ∈ allowed_modes)
    ∧ (∀ (m : Matcher) (st : Processor) (v : Str),
        st.processing_mode = "Raw".toList →
        (∀ d, (analyze m st d).1.offset = st.offset)
        ∧ (setData m st v).offset = st.offset
        ∧ (setData m st v).formatted_results
            = st.formatted_results
              ++ (dispatchedChunks st v).flatMap
                  (fun c => (m c).map (formatMatch st.offset))
        ∧ (v ≠ [] → st.buffer_size ≤ (v.drop st.window_index).length →
            (setData m st v).window_index = v.length)) := by
  refine ⟨?_, by decide, ?_⟩
  · intro mode bs ws h
    rw [mkProcessor, if_pos h]
  · intro m st v hmode
    have hmode' : st.processing_mode ≠ "raw".toList := by
      rw [hmode]; exact Raw_ne_raw
    have hanalyze : ∀ d, (analyze m st d).1.offset = st.offset := by
      intro d
      rw [analyze_offset, if_neg (by rw [hmode]; exact Raw_ne_raw)]
    by_cases hv : v = []
    · rw [setData_eq_of_no_dispatch m st v (Or.inr (Or.inl hv)),
        dispatchedChunks_of_no_dispatch st v (Or.inr (Or.inl hv))]
      exact ⟨hanalyze, rfl, by simp, fun hv' _ => absurd hv hv'⟩
    · by_cases hlen : st.buffer_size ≤ (v.drop st.window_index).length
      · rw [setData_eq_of_dispatch m st v hmode' hv hlen,
          dispatchedChunks_of_dispatch st v hmode' hv hlen]
        have hfold := foldl_chunkStep_Raw m
          (window (v.drop st.window_index) st.buffer_size st.window_step)
          { st with current := v } (by exact hmode)
          (fun c hc => window_mem_ne_nil _ _ _ c hc)
        refine ⟨hanalyze, ?_, ?_, fun _ _ => rfl⟩
        · simpa using hfold.1
        · simpa using hfold.2
      · push_neg at hlen
        rw [setData_eq_of_no_dispatch m st v (Or.inr (Or.inr hlen)),
          dispatchedChunks_of_no_dispatch st v (Or.inr (Or.inr hlen))]
        exact ⟨hanalyze, rfl, by simp, fun _ hlen' => absurd hlen' (by omega)⟩

/-- Witness for C9 at the verbatim mode `"Raw"` and data `"123456789"`. -/
theorem mode_validation_case_insensitive_storage_verbatim_witness :
    (("Raw".toList).map Char.toLower ∈ allowed_modes) ∧
    mkProcessor ("Raw".toList) 5 1 = Except.ok RawProc5 ∧
    RawProc5.processing_mode = "Raw".toList ∧
    (analyze probe RawProc5 (some ("ab".toList))).1.offset = RawProc5.offset ∧
    (setData probe RawProc5 ("123456789".toList)).offset = RawProc5.offset ∧
    (setData probe RawProc5 ("123456789".toList)).formatted_results
      = RawProc5.formatted_results
        ++ (dispatchedChunks RawProc5 ("123456789".toList)).flatMap
            (fun c => (probe c).map (formatMatch RawProc5.offset)) ∧
    (setData probe RawProc5 ("123456789".toList)).window_index
      = ("123456789".toList).length := by
  have h := mode_validation_case_insensitive_storage_verbatim
  have h3 := h.2.2 probe RawProc5 ("123456789".toList) (by decide)
  exact ⟨by decide, h.1 ("Raw".toList) 5 1 (by decide), by decide,
    h3.1 (some ("ab".toList)), h3.2.1, h3.2.2.1,
    h3.2.2.2 (by decide) (by decide)⟩

/-- C10: calling `analyze` with an explicitly empty data argument is
indistinguishable from calling it with no argument: the falsiness test
`if not data` redirects both to the whole current buffer, so an explicitly
empty input can never be scanned through the `data` parameter. -/
theorem analyze_empty_data_same_as_none (m : Matcher) (st : Processor) :
    analyze m st (some []) = analyze m st none ∧
    analyzeData st (some []) = st.current :=
  ⟨rfl, rfl⟩
